import Mathlib

/-!
Shallow embedding of the standalone transaction validator of TurtleDexCore
(`types/validtransaction.go`): the transaction data model, the individual
rule functions, and the top-level `StandaloneValid` chain, together with
theorems settling the specification's claims about them.

Go `error` results are embedded as `Option Err` (`none` = nil/success,
`some e` = the named error). `Currency` is Go's arbitrary-precision
non-negative big integer, embedded as `Nat`; `Currency.Add` is `+`,
`Currency.Cmp _ != 0` is `≠`, `Currency.IsZero` is `= 0`.
-/

namespace TurtleDex

/-- Arbitrary-precision non-negative currency (Go `types.Currency`, a big.Int
constrained to be non-negative). -/
abbrev Currency := Nat

/-- Block height (Go `types.BlockHeight`, a uint64 used only via comparisons). -/
abbrev BlockHeight := Nat

/-- Unlock hash (address). The Go zero value `UnlockHash{}` — the "void"
address — is embedded as `0`. -/
abbrev UnlockHash := Nat

/-- The error taxonomy of `validtransaction.go` (the `Err...` variables),
plus `sigError` for the opaque cryptographic error kinds of the external
signature collaborator. -/
inductive Err where
  | doubleSpend
  | fileContractOutputSumViolation
  | fileContractWindowEndViolation
  | fileContractWindowStartViolation
  | nonZeroClaimStart
  | nonZeroRevision
  | storageProofWithOutputs
  | timelockNotSatisfied
  | transactionTooLarge
  | zeroMinerFee
  | zeroOutput
  | zeroRevision
  | invalidFoundationUpdateEncoding
  | uninitializedFoundationUpdate
  | sigError (kind : Nat)
deriving DecidableEq, Repr

/-- Unlock conditions (spec §3): timelock, public keys, signatures required. -/
structure UnlockConditions where
  Timelock : BlockHeight := 0
  PublicKeys : List Nat := []
  SignaturesRequired : Nat := 0
deriving DecidableEq, Repr

/-- A coin input: parent output ID and the conditions unlocking it. -/
structure TurtleDexcoinInput where
  ParentID : Nat
  UnlockConditions : UnlockConditions := {}
deriving DecidableEq, Repr

/-- A coin output: value and destination address. -/
structure TurtleDexcoinOutput where
  Value : Currency
  UnlockHash : UnlockHash := 0
deriving DecidableEq, Repr

/-- A file contract (spec §3). `RevisionNumber` is the field the declared but
unused error `ErrNonZeroRevision` speaks about. -/
structure FileContract where
  Payout : Currency := 0
  WindowStart : BlockHeight := 0
  WindowEnd : BlockHeight := 0
  ValidProofOutputs : List TurtleDexcoinOutput := []
  MissedProofOutputs : List TurtleDexcoinOutput := []
  UnlockHash : UnlockHash := 0
  RevisionNumber : Nat := 0
deriving DecidableEq, Repr

/-- A file contract revision (spec §3): keyed by parent contract ID and
unlock conditions, carrying the new window and new output sets. -/
structure FileContractRevision where
  ParentID : Nat
  UnlockConditions : UnlockConditions := {}
  NewRevisionNumber : Nat := 0
  NewWindowStart : BlockHeight := 0
  NewWindowEnd : BlockHeight := 0
  NewValidProofOutputs : List TurtleDexcoinOutput := []
  NewMissedProofOutputs : List TurtleDexcoinOutput := []
deriving DecidableEq, Repr

/-- A storage proof: the contract it proves plus opaque proof data. -/
structure StorageProof where
  ParentID : Nat
  ProofData : List Nat := []
deriving DecidableEq, Repr

/-- A fund (siafund) input. -/
structure TurtleDexfundInput where
  ParentID : Nat
  UnlockConditions : UnlockConditions := {}
deriving DecidableEq, Repr

/-- A fund (siafund) output; `ClaimStart` is the reserved field that must be
zero on the wire. -/
structure TurtleDexfundOutput where
  Value : Currency
  UnlockHash : UnlockHash := 0
  ClaimStart : Currency := 0
deriving DecidableEq, Repr

/-- The governance payload decoded from a Foundation-prefixed arbitrary-data
entry: the new primary and failsafe addresses. -/
structure FoundationUnlockHashUpdate where
  NewPrimary : UnlockHash
  NewFailsafe : UnlockHash
deriving DecidableEq, Repr

/-- The transaction data model (spec §3). Byte strings are `List Nat`. -/
structure Transaction where
  TurtleDexcoinInputs : List TurtleDexcoinInput := []
  TurtleDexcoinOutputs : List TurtleDexcoinOutput := []
  FileContracts : List FileContract := []
  FileContractRevisions : List FileContractRevision := []
  StorageProofs : List StorageProof := []
  TurtleDexfundInputs : List TurtleDexfundInput := []
  TurtleDexfundOutputs : List TurtleDexfundOutput := []
  MinerFees : List Currency := []
  ArbitraryData : List (List Nat) := []
deriving DecidableEq, Repr

/-- Modelled from the spec: the network parameters and external collaborators
of §6, none of which are defined under src — the height constants
(`BlockSizeLimit`, `OakHardforkBlock`, `OakHardforkTxnSizeLimit`,
`FoundationHardforkHeight`), the Foundation specifier byte sequence, the tax
collaborator `PostTax`, the encoding collaborator (`encoding.Unmarshal` of a
`FoundationUnlockHashUpdate`, `none` = decode failure), the canonical size
encoder `MarshalTurtleDexSize`, and the signature-verification collaborator
`ValidSignatures` (returning an opaque cryptographic error kind on failure). -/
structure Env where
  BlockSizeLimit : Nat
  OakHardforkBlock : BlockHeight
  OakHardforkTxnSizeLimit : Nat
  FoundationHardforkHeight : BlockHeight
  SpecifierFoundation : List Nat
  PostTax : BlockHeight → Currency → Currency
  UnmarshalUpdate : List Nat → Option FoundationUnlockHashUpdate
  MarshalTurtleDexSize : Transaction → Nat
  ValidSignatures : Transaction → BlockHeight → Option Nat

/-- Go's fail-fast sequencing of two `error` results: the first non-nil error
wins. -/
def chainErr : Option Err → Option Err → Option Err
  | some e, _ => some e
  | none, r => r

/-- The per-contract body of the `for` loop of `correctFileContracts`:
window-start check, window-end check, then both proof-output sums against
`PostTax(currentHeight, payout)`. The zero-value output checks are present in
the source only as comments ("Future hardforking code") and are therefore
absent here. -/
def checkFileContract (env : Env) (currentHeight : BlockHeight)
    (fc : FileContract) : Option Err :=
  if fc.WindowStart ≤ currentHeight then
    some Err.fileContractWindowStartViolation
  else if fc.WindowEnd ≤ fc.WindowStart then
    some Err.fileContractWindowEndViolation
  else
    let validProofOutputSum :=
      fc.ValidProofOutputs.foldl (fun acc output => acc + output.Value) (0 : Currency)
    let missedProofOutputSum :=
      fc.MissedProofOutputs.foldl (fun acc output => acc + output.Value) (0 : Currency)
    let outputPortion := env.PostTax currentHeight fc.Payout
    if validProofOutputSum ≠ outputPortion then
      some Err.fileContractOutputSumViolation
    else if missedProofOutputSum ≠ outputPortion then
      some Err.fileContractOutputSumViolation
    else none

/-- `(t Transaction) correctFileContracts(currentHeight)`: first error of the
per-contract checks, in order. -/
def Transaction.correctFileContracts (t : Transaction) (env : Env)
    (currentHeight : BlockHeight) : Option Err :=
  t.FileContracts.findSome? (checkFileContract env currentHeight)

/-- The per-revision body of the `for` loop of
`correctFileContractRevisions`: the same window checks on the new window,
then equality of the two new proof-output sums (no tax term). The zero-value
output checks are commented out in the source and therefore absent here. -/
def checkFileContractRevision (currentHeight : BlockHeight)
    (fcr : FileContractRevision) : Option Err :=
  if fcr.NewWindowStart ≤ currentHeight then
    some Err.fileContractWindowStartViolation
  else if fcr.NewWindowEnd ≤ fcr.NewWindowStart then
    some Err.fileContractWindowEndViolation
  else
    let validProofOutputSum :=
      fcr.NewValidProofOutputs.foldl (fun acc output => acc + output.Value) (0 : Currency)
    let missedProofOutputSum :=
      fcr.NewMissedProofOutputs.foldl (fun acc output => acc + output.Value) (0 : Currency)
    if validProofOutputSum ≠ missedProofOutputSum then
      some Err.fileContractOutputSumViolation
    else none

/-- `(t Transaction) correctFileContractRevisions(currentHeight)`. -/
def Transaction.correctFileContractRevisions (t : Transaction)
    (currentHeight : BlockHeight) : Option Err :=
  t.FileContractRevisions.findSome? (checkFileContractRevision currentHeight)

/-- The per-entry body of the `for` loop of `correctArbitraryData`: entries
beginning with the Foundation specifier must decode to a
`FoundationUnlockHashUpdate` whose two addresses are both non-void. -/
def checkArbEntry (env : Env) (arb : List Nat) : Option Err :=
  if arb.take env.SpecifierFoundation.length = env.SpecifierFoundation then
    match env.UnmarshalUpdate (arb.drop env.SpecifierFoundation.length) with
    | none => some Err.invalidFoundationUpdateEncoding
    | some update =>
      if update.NewPrimary = 0 ∨ update.NewFailsafe = 0 then
        some Err.uninitializedFoundationUpdate
      else none
  else none

/-- `(t Transaction) correctArbitraryData(currentHeight)`: a no-op below
`FoundationHardforkHeight`, otherwise the first error over the entries. -/
def Transaction.correctArbitraryData (t : Transaction) (env : Env)
    (currentHeight : BlockHeight) : Option Err :=
  if currentHeight < env.FoundationHardforkHeight then none
  else t.ArbitraryData.findSome? (checkArbEntry env)

/-- `(t Transaction) fitsInABlock(currentHeight)`: the canonical encoded size
against `BlockSizeLimit - 5e3`, and against `OakHardforkTxnSizeLimit` once
`currentHeight >= OakHardforkBlock`. -/
def Transaction.fitsInABlock (t : Transaction) (env : Env)
    (currentHeight : BlockHeight) : Option Err :=
  let size := env.MarshalTurtleDexSize t
  if size > env.BlockSizeLimit - 5000 then
    some Err.transactionTooLarge
  else if currentHeight ≥ env.OakHardforkBlock ∧
      size > env.OakHardforkTxnSizeLimit then
    some Err.transactionTooLarge
  else none

/-- The per-output body of the fund-output loop of `followsMinimumValues`:
reserved `ClaimStart` must be zero, then the value must be non-zero. -/
def checkFundOutput (sfo : TurtleDexfundOutput) : Option Err :=
  if sfo.ClaimStart ≠ 0 then some Err.nonZeroClaimStart
  else if sfo.Value = 0 then some Err.zeroOutput
  else none

/-- `(t Transaction) followsMinimumValues()`: coin outputs, contract payouts,
fund outputs (claim-start then value), then miner fees, in source order. -/
def Transaction.followsMinimumValues (t : Transaction) : Option Err :=
  chainErr (t.TurtleDexcoinOutputs.findSome? fun sco =>
      if sco.Value = 0 then some Err.zeroOutput else none)
  (chainErr (t.FileContracts.findSome? fun fc =>
      if fc.Payout = 0 then some Err.zeroOutput else none)
  (chainErr (t.TurtleDexfundOutputs.findSome? checkFundOutput)
  (t.MinerFees.findSome? fun fee =>
      if fee = 0 then some Err.zeroMinerFee else none)))

/-- `(t Transaction) followsStorageProofRules()`: with at least one storage
proof, no coin outputs, file contracts, revisions, or fund outputs. -/
def Transaction.followsStorageProofRules (t : Transaction) : Option Err :=
  if t.StorageProofs.length = 0 then none
  else if t.TurtleDexcoinOutputs.length ≠ 0 then some Err.storageProofWithOutputs
  else if t.FileContracts.length ≠ 0 then some Err.storageProofWithOutputs
  else if t.FileContractRevisions.length ≠ 0 then some Err.storageProofWithOutputs
  else if t.TurtleDexfundOutputs.length ≠ 0 then some Err.storageProofWithOutputs
  else none

/-- The map-based duplicate scan of `noRepeats`: walking the list with the
set of already-seen IDs, `true` as soon as an ID repeats. -/
def findRepeat (seen : List Nat) : List Nat → Bool
  | [] => false
  | x :: xs => if x ∈ seen then true else findRepeat (x :: seen) xs

/-- `(t Transaction) noRepeats()`: coin-input parent IDs, then the parent IDs
of storage proofs and revisions scanned against one shared map
(`doneFileContracts`), then fund-input parent IDs. -/
def Transaction.noRepeats (t : Transaction) : Option Err :=
  if findRepeat [] (t.TurtleDexcoinInputs.map TurtleDexcoinInput.ParentID) then
    some Err.doubleSpend
  else if findRepeat [] (t.StorageProofs.map StorageProof.ParentID ++
      t.FileContractRevisions.map FileContractRevision.ParentID) then
    some Err.doubleSpend
  else if findRepeat [] (t.TurtleDexfundInputs.map TurtleDexfundInput.ParentID) then
    some Err.doubleSpend
  else none

/-- `validUnlockConditions(uc, currentHeight)` (free function): the timelock
must not exceed the current height. -/
def validUnlockConditions (uc : UnlockConditions)
    (currentHeight : BlockHeight) : Option Err :=
  if uc.Timelock > currentHeight then some Err.timelockNotSatisfied else none

/-- `(t Transaction) validUnlockConditions(currentHeight)`: coin inputs, then
revisions, then fund inputs. -/
def Transaction.validUnlockConditions (t : Transaction)
    (currentHeight : BlockHeight) : Option Err :=
  chainErr (t.TurtleDexcoinInputs.findSome? fun sci =>
      TurtleDex.validUnlockConditions sci.UnlockConditions currentHeight)
  (chainErr (t.FileContractRevisions.findSome? fun fcr =>
      TurtleDex.validUnlockConditions fcr.UnlockConditions currentHeight)
  (t.TurtleDexfundInputs.findSome? fun sfi =>
      TurtleDex.validUnlockConditions sfi.UnlockConditions currentHeight))

/-- `(t Transaction) StandaloneValid(currentHeight)`: the fail-fast rule
chain, in the source's order. -/
def Transaction.StandaloneValid (t : Transaction) (env : Env)
    (currentHeight : BlockHeight) : Option Err :=
  chainErr (t.fitsInABlock env currentHeight)
  (chainErr t.followsStorageProofRules
  (chainErr t.noRepeats
  (chainErr t.followsMinimumValues
  (chainErr (t.correctFileContracts env currentHeight)
  (chainErr (t.correctFileContractRevisions currentHeight)
  (chainErr (t.correctArbitraryData env currentHeight)
  (chainErr (t.validUnlockConditions currentHeight)
  ((env.ValidSignatures t currentHeight).map Err.sigError))))))))

/-- The transaction with every revision-number field rewritten through `g`
and everything else untouched; used to state that the validator's verdict
does not depend on revision numbers. -/
def mapRevisionNumbers (g : Nat → Nat) (t : Transaction) : Transaction :=
  { t with
    FileContracts := t.FileContracts.map fun fc =>
      { fc with RevisionNumber := g fc.RevisionNumber },
    FileContractRevisions := t.FileContractRevisions.map fun fcr =>
      { fcr with NewRevisionNumber := g fcr.NewRevisionNumber } }

/-- A concrete network environment (constants and collaborators) used to
instantiate the universally quantified theorems on explicit inputs. -/
def envW : Env where
  BlockSizeLimit := 2000000
  OakHardforkBlock := 100
  OakHardforkTxnSizeLimit := 64000
  FoundationHardforkHeight := 10
  SpecifierFoundation := [70, 111]
  PostTax := fun _ payout => payout - payout / 10
  UnmarshalUpdate := fun bytes =>
    match bytes with
    | [p, q] => some ⟨p, q⟩
    | _ => none
  MarshalTurtleDexSize := fun _ => 100
  ValidSignatures := fun _ _ => none

/-- The empty transaction. -/
def txEmpty : Transaction := {}

/-- A transaction violating both the file-contract rule (window start in the
past) and the storage-proof rule (a storage proof next to a file contract). -/
def txC1 : Transaction :=
  { StorageProofs := [{ ParentID := 1 }],
    FileContracts := [{ Payout := 100, WindowStart := 0, WindowEnd := 0,
                        ValidProofOutputs := [{ Value := 90 }],
                        MissedProofOutputs := [{ Value := 90 }] }] }

/-- A transaction whose file contract carries zero-value proof-output
entries while the window and sum conditions hold. -/
def txZeroEntry : Transaction :=
  { FileContracts := [{ Payout := 100, WindowStart := 6, WindowEnd := 7,
                        ValidProofOutputs := [{ Value := 90 }, { Value := 0 }],
                        MissedProofOutputs := [{ Value := 0 }, { Value := 90 }] }] }

/-- A transaction with a Foundation-prefixed arbitrary-data entry whose
remainder does not decode. -/
def txFound : Transaction :=
  { ArbitraryData := [[70, 111, 5]] }

/-- A transaction whose only flaw is a non-zero reserved `ClaimStart`. -/
def txMin : Transaction :=
  { TurtleDexfundOutputs := [{ Value := 5, ClaimStart := 1 }] }

/-- A valid transaction carrying non-trivial revision-number fields. -/
def txRev : Transaction :=
  { FileContracts := [{ Payout := 100, WindowStart := 6, WindowEnd := 7,
                        ValidProofOutputs := [{ Value := 90 }],
                        MissedProofOutputs := [{ Value := 90 }],
                        RevisionNumber := 5 }],
    FileContractRevisions := [{ ParentID := 2, NewRevisionNumber := 7,
                                NewWindowStart := 6, NewWindowEnd := 7,
                                NewValidProofOutputs := [{ Value := 40 }],
                                NewMissedProofOutputs := [{ Value := 40 }] }] }

/-! ### Helper lemmas about the embedding's combinators -/

theorem chainErr_none_left (b : Option Err) : chainErr none b = b := rfl

theorem chainErr_some_left (e : Err) (b : Option Err) :
    chainErr (some e) b = some e := rfl

theorem chainErr_none_right (a : Option Err) : chainErr a none = a := by
  cases a <;> rfl

theorem chainErr_eq_none_iff (a b : Option Err) :
    chainErr a b = none ↔ a = none ∧ b = none := by
  cases a <;> simp [chainErr]

theorem chainErr_ne {a b : Option Err} {e : Err} (ha : a ≠ some e)
    (hb : b ≠ some e) : chainErr a b ≠ some e := by
  cases a <;> simp_all [chainErr]

theorem chainErr_findSome (x : Option Err) (xs : List (Option Err)) :
    List.findSome? id (x :: xs) = chainErr x (List.findSome? id xs) := by
  cases x <;> simp [List.findSome?_cons, chainErr]

/-- A `findSome?` whose per-element function can only produce the single
error `e` yields `none` or `some e`. -/
theorem findSome?_range {α : Type} {f : α → Option Err} {e : Err}
    (hrange : ∀ x, f x = none ∨ f x = some e) (l : List α) :
    l.findSome? f = none ∨ l.findSome? f = some e := by
  induction l with
  | nil => simp
  | cons x xs ih =>
    rcases hrange x with hx | hx
    · simp only [List.findSome?_cons, hx]
      exact ih
    · simp [List.findSome?_cons, hx]

/-- If some element produces the single possible error `e`, the scan finds
it. -/
theorem findSome?_const_error {α : Type} {f : α → Option Err} {e : Err}
    (hrange : ∀ x, f x = none ∨ f x = some e) {l : List α}
    (hex : ∃ x ∈ l, f x = some e) : l.findSome? f = some e := by
  induction l with
  | nil => simp at hex
  | cons x xs ih =>
    rcases hrange x with hx | hx
    · simp only [List.findSome?_cons, hx]
      rcases hex with ⟨y, hy, hfy⟩
      rcases List.mem_cons.mp hy with rfl | hy
      · rw [hx] at hfy; cases hfy
      · exact ih ⟨y, hy, hfy⟩
    · simp [List.findSome?_cons, hx]

theorem findSome?_ne_of_forall {α : Type} {f : α → Option Err} {l : List α}
    {e : Err} (hf : ∀ x ∈ l, f x ≠ some e) : l.findSome? f ≠ some e := by
  intro hcontra
  obtain ⟨x, hx, hfx⟩ := List.exists_of_findSome?_eq_some hcontra
  exact hf x hx hfx

theorem findSome?_congr_mem {α : Type} {f g : α → Option Err} {l : List α}
    (h : ∀ x ∈ l, f x = g x) : l.findSome? f = l.findSome? g := by
  induction l with
  | nil => rfl
  | cons x xs ih =>
    have hx := h x (by simp)
    simp only [List.findSome?_cons, hx]
    cases g x with
    | none => exact ih fun y hy => h y (by simp [hy])
    | some e => rfl

/-- The accumulation loop over output values equals the mapped sum. -/
theorem foldl_add_value (l : List TurtleDexcoinOutput) (init : Currency) :
    l.foldl (fun acc output => acc + output.Value) init =
      init + (l.map TurtleDexcoinOutput.Value).sum := by
  induction l generalizing init with
  | nil => simp
  | cons x xs ih =>
    simp [List.foldl_cons, ih, Nat.add_assoc]

/-- The seen-set duplicate scan succeeds (returns `false`) exactly when the
list has no duplicates and avoids everything already seen. -/
theorem findRepeat_eq_false_iff (l : List Nat) :
    ∀ seen : List Nat,
      findRepeat seen l = false ↔ l.Nodup ∧ ∀ x ∈ l, x ∉ seen := by
  induction l with
  | nil => intro seen; simp [findRepeat]
  | cons x xs ih =>
    intro seen
    simp only [findRepeat]
    by_cases hx : x ∈ seen
    · rw [if_pos hx]
      constructor
      · intro hcontra; exact absurd hcontra (by simp)
      · rintro ⟨-, hall⟩
        exact absurd hx (hall x (List.mem_cons_self x xs))
    · rw [if_neg hx, ih (x :: seen), List.nodup_cons]
      constructor
      · rintro ⟨hnd, hall⟩
        refine ⟨⟨fun hmem => ?_, hnd⟩, fun y hy => ?_⟩
        · exact (hall x hmem) (List.mem_cons_self x seen)
        · rcases List.mem_cons.mp hy with rfl | hy'
          · exact hx
          · exact fun hc => (hall y hy') (List.mem_cons_of_mem x hc)
      · rintro ⟨⟨hxnot, hnd⟩, hall⟩
        refine ⟨hnd, fun y hy hc => ?_⟩
        rcases List.mem_cons.mp hc with rfl | hc'
        · exact hxnot hy
        · exact (hall y (List.mem_cons_of_mem x hy)) hc'

theorem findRepeat_nil_eq_false_iff (l : List Nat) :
    findRepeat [] l = false ↔ l.Nodup := by
  rw [findRepeat_eq_false_iff]
  simp

theorem findRepeat_nil_eq_true_iff (l : List Nat) :
    findRepeat [] l = true ↔ ¬ l.Nodup := by
  rw [← findRepeat_nil_eq_false_iff]
  cases findRepeat [] l <;> simp

/-! ### Per-rule characterization lemmas -/

theorem checkFileContract_eq_none_iff (env : Env) (h : BlockHeight)
    (fc : FileContract) :
    checkFileContract env h fc = none ↔
      h < fc.WindowStart ∧ fc.WindowStart < fc.WindowEnd ∧
      (fc.ValidProofOutputs.map TurtleDexcoinOutput.Value).sum =
        env.PostTax h fc.Payout ∧
      (fc.MissedProofOutputs.map TurtleDexcoinOutput.Value).sum =
        env.PostTax h fc.Payout := by
  unfold checkFileContract
  simp only [foldl_add_value, Nat.zero_add]
  split <;> rename_i h1
  · constructor
    · intro hc; simp at hc
    · rintro ⟨h2, -⟩; exact absurd h2 (not_lt.mpr h1)
  split <;> rename_i h2
  · constructor
    · intro hc; simp at hc
    · rintro ⟨-, h3, -⟩; exact absurd h3 (not_lt.mpr h2)
  split <;> rename_i h3
  · constructor
    · intro hc; simp at hc
    · rintro ⟨-, -, h4, -⟩; exact absurd h4 h3
  split <;> rename_i h4
  · constructor
    · intro hc; simp at hc
    · rintro ⟨-, -, -, h5⟩; exact absurd h5 h4
  · simp only [eq_self_iff_true, true_iff]
    exact ⟨not_le.mp h1, not_le.mp h2, not_not.mp h3, not_not.mp h4⟩

theorem checkFileContract_possible (env : Env) (h : BlockHeight)
    (fc : FileContract) :
    checkFileContract env h fc = none ∨
    checkFileContract env h fc = some Err.fileContractWindowStartViolation ∨
    checkFileContract env h fc = some Err.fileContractWindowEndViolation ∨
    checkFileContract env h fc = some Err.fileContractOutputSumViolation := by
  unfold checkFileContract
  simp only [foldl_add_value, Nat.zero_add]
  split
  · simp
  split
  · simp
  split
  · simp
  split <;> simp

theorem checkFileContractRevision_eq_none_iff (h : BlockHeight)
    (fcr : FileContractRevision) :
    checkFileContractRevision h fcr = none ↔
      h < fcr.NewWindowStart ∧ fcr.NewWindowStart < fcr.NewWindowEnd ∧
      (fcr.NewValidProofOutputs.map TurtleDexcoinOutput.Value).sum =
        (fcr.NewMissedProofOutputs.map TurtleDexcoinOutput.Value).sum := by
  unfold checkFileContractRevision
  simp only [foldl_add_value, Nat.zero_add]
  split <;> rename_i h1
  · constructor
    · intro hc; simp at hc
    · rintro ⟨h2, -⟩; exact absurd h2 (not_lt.mpr h1)
  split <;> rename_i h2
  · constructor
    · intro hc; simp at hc
    · rintro ⟨-, h3, -⟩; exact absurd h3 (not_lt.mpr h2)
  split <;> rename_i h3
  · constructor
    · intro hc; simp at hc
    · rintro ⟨-, -, h4⟩; exact absurd h4 h3
  · simp only [eq_self_iff_true, true_iff]
    exact ⟨not_le.mp h1, not_le.mp h2, not_not.mp h3⟩

theorem checkFileContractRevision_possible (h : BlockHeight)
    (fcr : FileContractRevision) :
    checkFileContractRevision h fcr = none ∨
    checkFileContractRevision h fcr = some Err.fileContractWindowStartViolation ∨
    checkFileContractRevision h fcr = some Err.fileContractWindowEndViolation ∨
    checkFileContractRevision h fcr = some Err.fileContractOutputSumViolation := by
  unfold checkFileContractRevision
  simp only [foldl_add_value, Nat.zero_add]
  split
  · simp
  split
  · simp
  split <;> simp

/-- Every error a `findSome?` scan reports comes from some element. -/
theorem findSome?_possible {α : Type} {f : α → Option Err} {l : List α}
    {P : Err → Prop} (hf : ∀ x ∈ l, ∀ e, f x = some e → P e) :
    l.findSome? f = none ∨ ∃ e, l.findSome? f = some e ∧ P e := by
  cases hres : l.findSome? f with
  | none => exact Or.inl rfl
  | some e =>
    obtain ⟨x, hx, hfx⟩ := List.exists_of_findSome?_eq_some hres
    exact Or.inr ⟨e, rfl, hf x hx e hfx⟩

theorem correctFileContracts_eq_none_iff (t : Transaction) (env : Env)
    (h : BlockHeight) :
    t.correctFileContracts env h = none ↔
      ∀ fc ∈ t.FileContracts,
        h < fc.WindowStart ∧ fc.WindowStart < fc.WindowEnd ∧
        (fc.ValidProofOutputs.map TurtleDexcoinOutput.Value).sum =
          env.PostTax h fc.Payout ∧
        (fc.MissedProofOutputs.map TurtleDexcoinOutput.Value).sum =
          env.PostTax h fc.Payout := by
  unfold Transaction.correctFileContracts
  rw [List.findSome?_eq_none_iff]
  exact forall₂_congr fun fc _ => checkFileContract_eq_none_iff env h fc

theorem correctFileContracts_possible (t : Transaction) (env : Env)
    (h : BlockHeight) :
    t.correctFileContracts env h = none ∨
    t.correctFileContracts env h = some Err.fileContractWindowStartViolation ∨
    t.correctFileContracts env h = some Err.fileContractWindowEndViolation ∨
    t.correctFileContracts env h = some Err.fileContractOutputSumViolation := by
  unfold Transaction.correctFileContracts
  rcases findSome?_possible
      (P := fun e => e = Err.fileContractWindowStartViolation ∨
        e = Err.fileContractWindowEndViolation ∨
        e = Err.fileContractOutputSumViolation)
      (l := t.FileContracts) (f := checkFileContract env h)
      (fun fc _ e he => by
        rcases checkFileContract_possible env h fc with h1 | h1 | h1 | h1 <;>
          rw [h1] at he
        · cases he
        · cases he; exact Or.inl rfl
        · cases he; exact Or.inr (Or.inl rfl)
        · cases he; exact Or.inr (Or.inr rfl)) with
    hres | ⟨e, hres, he⟩
  · exact Or.inl hres
  · rcases he with rfl | rfl | rfl
    · exact Or.inr (Or.inl hres)
    · exact Or.inr (Or.inr (Or.inl hres))
    · exact Or.inr (Or.inr (Or.inr hres))

theorem correctFileContractRevisions_eq_none_iff (t : Transaction)
    (h : BlockHeight) :
    t.correctFileContractRevisions h = none ↔
      ∀ fcr ∈ t.FileContractRevisions,
        h < fcr.NewWindowStart ∧ fcr.NewWindowStart < fcr.NewWindowEnd ∧
        (fcr.NewValidProofOutputs.map TurtleDexcoinOutput.Value).sum =
          (fcr.NewMissedProofOutputs.map TurtleDexcoinOutput.Value).sum := by
  unfold Transaction.correctFileContractRevisions
  rw [List.findSome?_eq_none_iff]
  exact forall₂_congr fun fcr _ => checkFileContractRevision_eq_none_iff h fcr

theorem correctFileContractRevisions_possible (t : Transaction)
    (h : BlockHeight) :
    t.correctFileContractRevisions h = none ∨
    t.correctFileContractRevisions h = some Err.fileContractWindowStartViolation ∨
    t.correctFileContractRevisions h = some Err.fileContractWindowEndViolation ∨
    t.correctFileContractRevisions h = some Err.fileContractOutputSumViolation := by
  unfold Transaction.correctFileContractRevisions
  rcases findSome?_possible
      (P := fun e => e = Err.fileContractWindowStartViolation ∨
        e = Err.fileContractWindowEndViolation ∨
        e = Err.fileContractOutputSumViolation)
      (l := t.FileContractRevisions) (f := checkFileContractRevision h)
      (fun fcr _ e he => by
        rcases checkFileContractRevision_possible h fcr with h1 | h1 | h1 | h1 <;>
          rw [h1] at he
        · cases he
        · cases he; exact Or.inl rfl
        · cases he; exact Or.inr (Or.inl rfl)
        · cases he; exact Or.inr (Or.inr rfl)) with
    hres | ⟨e, hres, he⟩
  · exact Or.inl hres
  · rcases he with rfl | rfl | rfl
    · exact Or.inr (Or.inl hres)
    · exact Or.inr (Or.inr (Or.inl hres))
    · exact Or.inr (Or.inr (Or.inr hres))

theorem fitsInABlock_eq_none_iff (t : Transaction) (env : Env)
    (h : BlockHeight) :
    t.fitsInABlock env h = none ↔
      env.MarshalTurtleDexSize t ≤ env.BlockSizeLimit - 5000 ∧
      (env.OakHardforkBlock ≤ h →
        env.MarshalTurtleDexSize t ≤ env.OakHardforkTxnSizeLimit) := by
  unfold Transaction.fitsInABlock
  simp only [gt_iff_lt, ge_iff_le]
  split <;> rename_i h1
  · constructor
    · intro hc; simp at hc
    · rintro ⟨h2, -⟩; exact absurd h1 (not_lt.mpr h2)
  split <;> rename_i h2
  · constructor
    · intro hc; simp at hc
    · rintro ⟨-, h3⟩; exact absurd h2.2 (not_lt.mpr (h3 h2.1))
  · simp only [eq_self_iff_true, true_iff]
    refine ⟨not_lt.mp h1, fun hOak => ?_⟩
    by_contra hgt
    exact h2 ⟨hOak, not_le.mp hgt⟩

theorem fitsInABlock_possible (t : Transaction) (env : Env)
    (h : BlockHeight) :
    t.fitsInABlock env h = none ∨
    t.fitsInABlock env h = some Err.transactionTooLarge := by
  unfold Transaction.fitsInABlock
  simp only [gt_iff_lt, ge_iff_le]
  split
  · simp
  split <;> simp

theorem followsStorageProofRules_eq_none_iff (t : Transaction) :
    t.followsStorageProofRules = none ↔
      t.StorageProofs = [] ∨
      (t.TurtleDexcoinOutputs = [] ∧ t.FileContracts = [] ∧
       t.FileContractRevisions = [] ∧ t.TurtleDexfundOutputs = []) := by
  unfold Transaction.followsStorageProofRules
  repeat' split
  all_goals simp_all [List.length_eq_zero]

theorem followsStorageProofRules_possible (t : Transaction) :
    t.followsStorageProofRules = none ∨
    t.followsStorageProofRules = some Err.storageProofWithOutputs := by
  unfold Transaction.followsStorageProofRules
  repeat' split
  all_goals simp

theorem noRepeats_eq_doubleSpend_iff (t : Transaction) :
    t.noRepeats = some Err.doubleSpend ↔
      ¬ (t.TurtleDexcoinInputs.map TurtleDexcoinInput.ParentID).Nodup ∨
      ¬ (t.StorageProofs.map StorageProof.ParentID ++
         t.FileContractRevisions.map FileContractRevision.ParentID).Nodup ∨
      ¬ (t.TurtleDexfundInputs.map TurtleDexfundInput.ParentID).Nodup := by
  unfold Transaction.noRepeats
  repeat' split
  all_goals simp_all [findRepeat_nil_eq_true_iff, findRepeat_nil_eq_false_iff]

theorem noRepeats_possible (t : Transaction) :
    t.noRepeats = none ∨ t.noRepeats = some Err.doubleSpend := by
  unfold Transaction.noRepeats
  repeat' split
  all_goals simp

theorem checkFundOutput_possible (sfo : TurtleDexfundOutput) :
    checkFundOutput sfo = none ∨
    checkFundOutput sfo = some Err.nonZeroClaimStart ∨
    checkFundOutput sfo = some Err.zeroOutput := by
  unfold checkFundOutput
  split
  · simp
  split <;> simp

theorem followsMinimumValues_possible (t : Transaction) :
    t.followsMinimumValues = none ∨
    t.followsMinimumValues = some Err.zeroOutput ∨
    t.followsMinimumValues = some Err.nonZeroClaimStart ∨
    t.followsMinimumValues = some Err.zeroMinerFee := by
  unfold Transaction.followsMinimumValues
  have hcoin := findSome?_range
    (f := fun sco : TurtleDexcoinOutput =>
      if sco.Value = 0 then some Err.zeroOutput else none)
    (e := Err.zeroOutput) (fun x => by dsimp only; split <;> simp)
    t.TurtleDexcoinOutputs
  have hpay := findSome?_range
    (f := fun fc : FileContract =>
      if fc.Payout = 0 then some Err.zeroOutput else none)
    (e := Err.zeroOutput) (fun x => by dsimp only; split <;> simp)
    t.FileContracts
  have hfund := findSome?_possible
    (P := fun e => e = Err.nonZeroClaimStart ∨ e = Err.zeroOutput)
    (l := t.TurtleDexfundOutputs) (f := checkFundOutput)
    (fun sfo _ e he => by
      rcases checkFundOutput_possible sfo with h1 | h1 | h1 <;> rw [h1] at he
      · cases he
      · cases he; exact Or.inl rfl
      · cases he; exact Or.inr rfl)
  have hfee := findSome?_range
    (f := fun fee : Currency =>
      if fee = 0 then some Err.zeroMinerFee else none)
    (e := Err.zeroMinerFee) (fun x => by dsimp only; split <;> simp)
    t.MinerFees
  rcases hcoin with h1 | h1
  · rw [h1, chainErr_none_left]
    rcases hpay with h2 | h2
    · rw [h2, chainErr_none_left]
      rcases hfund with h3 | ⟨e, h3, he⟩
      · rw [h3, chainErr_none_left]
        rcases hfee with h4 | h4 <;> rw [h4] <;> simp
      · rw [h3, chainErr_some_left]
        rcases he with rfl | rfl <;> simp
    · rw [h2, chainErr_some_left]; simp
  · rw [h1, chainErr_some_left]; simp

theorem checkArbEntry_possible (env : Env) (arb : List Nat) :
    checkArbEntry env arb = none ∨
    checkArbEntry env arb = some Err.invalidFoundationUpdateEncoding ∨
    checkArbEntry env arb = some Err.uninitializedFoundationUpdate := by
  unfold checkArbEntry
  split
  · split
    · simp
    · split <;> simp
  · simp

theorem correctArbitraryData_possible (t : Transaction) (env : Env)
    (h : BlockHeight) :
    t.correctArbitraryData env h = none ∨
    t.correctArbitraryData env h = some Err.invalidFoundationUpdateEncoding ∨
    t.correctArbitraryData env h = some Err.uninitializedFoundationUpdate := by
  unfold Transaction.correctArbitraryData
  split
  · simp
  rcases findSome?_possible
      (P := fun e => e = Err.invalidFoundationUpdateEncoding ∨
        e = Err.uninitializedFoundationUpdate)
      (l := t.ArbitraryData) (f := checkArbEntry env)
      (fun arb _ e he => by
        rcases checkArbEntry_possible env arb with h1 | h1 | h1 <;> rw [h1] at he
        · cases he
        · cases he; exact Or.inl rfl
        · cases he; exact Or.inr rfl) with
    hres | ⟨e, hres, he⟩
  · exact Or.inl hres
  · rcases he with rfl | rfl
    · exact Or.inr (Or.inl hres)
    · exact Or.inr (Or.inr hres)

theorem validUnlockConditions_uc_possible (uc : UnlockConditions)
    (cur : BlockHeight) :
    validUnlockConditions uc cur = none ∨
    validUnlockConditions uc cur = some Err.timelockNotSatisfied := by
  unfold validUnlockConditions
  split <;> simp

theorem validUnlockConditions_possible (t : Transaction) (cur : BlockHeight) :
    t.validUnlockConditions cur = none ∨
    t.validUnlockConditions cur = some Err.timelockNotSatisfied := by
  unfold Transaction.validUnlockConditions
  have haux : ∀ (uc : UnlockConditions),
      TurtleDex.validUnlockConditions uc cur = none ∨
      TurtleDex.validUnlockConditions uc cur = some Err.timelockNotSatisfied :=
    fun uc => validUnlockConditions_uc_possible uc cur
  have h1 := findSome?_range
    (f := fun sci : TurtleDexcoinInput =>
      TurtleDex.validUnlockConditions sci.UnlockConditions cur)
    (e := Err.timelockNotSatisfied) (fun x => haux x.UnlockConditions)
    t.TurtleDexcoinInputs
  have h2 := findSome?_range
    (f := fun fcr : FileContractRevision =>
      TurtleDex.validUnlockConditions fcr.UnlockConditions cur)
    (e := Err.timelockNotSatisfied) (fun x => haux x.UnlockConditions)
    t.FileContractRevisions
  have h3 := findSome?_range
    (f := fun sfi : TurtleDexfundInput =>
      TurtleDex.validUnlockConditions sfi.UnlockConditions cur)
    (e := Err.timelockNotSatisfied) (fun x => haux x.UnlockConditions)
    t.TurtleDexfundInputs
  rcases h1 with h1 | h1
  · rw [h1, chainErr_none_left]
    rcases h2 with h2 | h2
    · rw [h2, chainErr_none_left]
      exact h3
    · rw [h2, chainErr_some_left]; simp
  · rw [h1, chainErr_some_left]; simp

/-! ### Claim theorems -/

/-- C1 (counterexample): the claimed §4.1→§4.9 evaluation order is wrong. At
height 5, `txC1` violates both the file-contract rule (§4.2, here returning
`fileContractWindowStartViolation`) and the storage-proof rule (§4.6), yet
`StandaloneValid` returns the storage-proof rule's error, not the error of
the rule that comes earlier in the spec's section order. -/
theorem standaloneValid_spec_order_counterexample :
    txC1.StandaloneValid envW 5 = some Err.storageProofWithOutputs ∧
    txC1.correctFileContracts envW 5 =
      some Err.fileContractWindowStartViolation ∧
    Err.storageProofWithOutputs ≠ Err.fileContractWindowStartViolation := by
  refine ⟨by decide, by decide, by decide⟩

/-- C1 (amended): `StandaloneValid` invokes the rule functions in the order
fitsInABlock, followsStorageProofRules, noRepeats, followsMinimumValues,
correctFileContracts, correctFileContractRevisions, correctArbitraryData,
validUnlockConditions, validSignatures — and returns the first non-nil
error of that sequence. -/
theorem standaloneValid_first_error (env : Env) (t : Transaction)
    (h : BlockHeight) :
    t.StandaloneValid env h =
      [t.fitsInABlock env h, t.followsStorageProofRules, t.noRepeats,
       t.followsMinimumValues, t.correctFileContracts env h,
       t.correctFileContractRevisions h, t.correctArbitraryData env h,
       t.validUnlockConditions h,
       (env.ValidSignatures t h).map Err.sigError].findSome? id := by
  simp only [Transaction.StandaloneValid, chainErr_findSome,
    List.findSome?_nil, chainErr_none_right]

/-- C2: `correctFileContracts` checks each contract in order — window start
strictly in the future, window end strictly after window start, and both
exact proof-output sums equal to `PostTax(currentHeight, payout)` — with the
stated errors, and succeeds exactly when every contract passes all three
checks. -/
theorem correctFileContracts_spec (env : Env) (t : Transaction)
    (h : BlockHeight) :
    (t.correctFileContracts env h =
      t.FileContracts.findSome? (fun fc =>
        if fc.WindowStart ≤ h then
          some Err.fileContractWindowStartViolation
        else if fc.WindowEnd ≤ fc.WindowStart then
          some Err.fileContractWindowEndViolation
        else if (fc.ValidProofOutputs.map TurtleDexcoinOutput.Value).sum =
                  env.PostTax h fc.Payout ∧
                (fc.MissedProofOutputs.map TurtleDexcoinOutput.Value).sum =
                  env.PostTax h fc.Payout then
          none
        else some Err.fileContractOutputSumViolation)) ∧
    (t.correctFileContracts env h = none ↔
      ∀ fc ∈ t.FileContracts,
        h < fc.WindowStart ∧ fc.WindowStart < fc.WindowEnd ∧
        (fc.ValidProofOutputs.map TurtleDexcoinOutput.Value).sum =
          env.PostTax h fc.Payout ∧
        (fc.MissedProofOutputs.map TurtleDexcoinOutput.Value).sum =
          env.PostTax h fc.Payout) := by
  refine ⟨?_, correctFileContracts_eq_none_iff t env h⟩
  unfold Transaction.correctFileContracts
  refine findSome?_congr_mem fun fc _ => ?_
  unfold checkFileContract
  simp only [foldl_add_value, Nat.zero_add]
  by_cases h1 : fc.WindowStart ≤ h
  · simp [h1]
  by_cases h2 : fc.WindowEnd ≤ fc.WindowStart
  · simp [h1, h2]
  by_cases h3 : (fc.ValidProofOutputs.map TurtleDexcoinOutput.Value).sum =
      env.PostTax h fc.Payout
  · by_cases h4 : (fc.MissedProofOutputs.map TurtleDexcoinOutput.Value).sum =
        env.PostTax h fc.Payout
    · simp [h1, h2, h3, h4]
    · simp [h1, h2, h3, h4]
  · simp [h1, h2, h3]

/-- C3: the zero-value-output rejection for contract proof outputs is
dormant: neither `correctFileContracts` nor `correctFileContractRevisions`
ever returns `zeroOutput`, and a contract or revision containing zero-value
proof-output entries still passes whenever the window and sum conditions
hold. -/
theorem contract_rules_no_zeroOutput (env : Env) (t : Transaction)
    (h : BlockHeight) :
    t.correctFileContracts env h ≠ some Err.zeroOutput ∧
    t.correctFileContractRevisions h ≠ some Err.zeroOutput ∧
    ((∀ fc ∈ t.FileContracts,
        h < fc.WindowStart ∧ fc.WindowStart < fc.WindowEnd ∧
        (fc.ValidProofOutputs.map TurtleDexcoinOutput.Value).sum =
          env.PostTax h fc.Payout ∧
        (fc.MissedProofOutputs.map TurtleDexcoinOutput.Value).sum =
          env.PostTax h fc.Payout) →
      t.correctFileContracts env h = none) ∧
    ((∀ fcr ∈ t.FileContractRevisions,
        h < fcr.NewWindowStart ∧ fcr.NewWindowStart < fcr.NewWindowEnd ∧
        (fcr.NewValidProofOutputs.map TurtleDexcoinOutput.Value).sum =
          (fcr.NewMissedProofOutputs.map TurtleDexcoinOutput.Value).sum) →
      t.correctFileContractRevisions h = none) := by
  refine ⟨?_, ?_,
    fun hall => (correctFileContracts_eq_none_iff t env h).mpr hall,
    fun hall => (correctFileContractRevisions_eq_none_iff t h).mpr hall⟩
  · rcases correctFileContracts_possible t env h with h1 | h1 | h1 | h1 <;>
      simp [h1]
  · rcases correctFileContractRevisions_possible t h with h1 | h1 | h1 | h1 <;>
      simp [h1]

/-- C3 (witness): a contract with zero-value proof-output entries whose
window and sum conditions hold passes `correctFileContracts`. -/
theorem contract_rules_no_zeroOutput_witness :
    txZeroEntry.correctFileContracts envW 5 = none :=
  (contract_rules_no_zeroOutput envW txZeroEntry 5).2.2.1 (by decide)

/-- C4: `fitsInABlock` succeeds exactly when the canonical encoded size is
at most `BlockSizeLimit - 5000` and, once `OakHardforkBlock` is reached,
also at most `OakHardforkTxnSizeLimit`; any failure is
`transactionTooLarge`, and one byte over the legacy bound already fails. -/
theorem fitsInABlock_spec (env : Env) (t : Transaction) (h : BlockHeight) :
    (t.fitsInABlock env h = none ↔
      env.MarshalTurtleDexSize t ≤ env.BlockSizeLimit - 5000 ∧
      (env.OakHardforkBlock ≤ h →
        env.MarshalTurtleDexSize t ≤ env.OakHardforkTxnSizeLimit)) ∧
    (t.fitsInABlock env h = none ∨
     t.fitsInABlock env h = some Err.transactionTooLarge) ∧
    (env.MarshalTurtleDexSize t = env.BlockSizeLimit - 5000 + 1 →
      t.fitsInABlock env h = some Err.transactionTooLarge) := by
  refine ⟨fitsInABlock_eq_none_iff t env h, fitsInABlock_possible t env h,
    fun hsz => ?_⟩
  rcases fitsInABlock_possible t env h with h1 | h1
  · exfalso
    obtain ⟨h2, -⟩ := (fitsInABlock_eq_none_iff t env h).mp h1
    rw [hsz] at h2
    exact Nat.not_succ_le_self _ h2
  · exact h1

/-- C4 (witness): a transaction of size 100 passes both bounds of `envW` at
height 5. -/
theorem fitsInABlock_spec_witness : txEmpty.fitsInABlock envW 5 = none :=
  (fitsInABlock_spec envW txEmpty 5).1.mpr (by decide)

/-- C5: `correctArbitraryData` is a no-op below `FoundationHardforkHeight`;
from that height on it scans the entries: a Foundation-prefixed entry whose
remainder fails to decode yields `invalidFoundationUpdateEncoding`, a
decoded update with a void `NewPrimary` or `NewFailsafe` yields
`uninitializedFoundationUpdate`, and entries without the prefix never cause
an error. -/
theorem correctArbitraryData_spec (env : Env) (t : Transaction)
    (h : BlockHeight) :
    (h < env.FoundationHardforkHeight →
      t.correctArbitraryData env h = none) ∧
    (env.FoundationHardforkHeight ≤ h →
      t.correctArbitraryData env h =
        t.ArbitraryData.findSome? (checkArbEntry env)) ∧
    (∀ arb : List Nat,
      arb.take env.SpecifierFoundation.length ≠ env.SpecifierFoundation →
      checkArbEntry env arb = none) ∧
    (∀ arb : List Nat,
      arb.take env.SpecifierFoundation.length = env.SpecifierFoundation →
      env.UnmarshalUpdate (arb.drop env.SpecifierFoundation.length) = none →
      checkArbEntry env arb = some Err.invalidFoundationUpdateEncoding) ∧
    (∀ (arb : List Nat) (update : FoundationUnlockHashUpdate),
      arb.take env.SpecifierFoundation.length = env.SpecifierFoundation →
      env.UnmarshalUpdate (arb.drop env.SpecifierFoundation.length) =
        some update →
      ((update.NewPrimary = 0 ∨ update.NewFailsafe = 0) →
        checkArbEntry env arb = some Err.uninitializedFoundationUpdate) ∧
      (update.NewPrimary ≠ 0 → update.NewFailsafe ≠ 0 →
        checkArbEntry env arb = none)) := by
  refine ⟨fun hlt => ?_, fun hge => ?_, fun arb hpre => ?_,
    fun arb hpre hdec => ?_,
    fun arb update hpre hdec => ⟨fun hz => ?_, fun hnp hnf => ?_⟩⟩
  · unfold Transaction.correctArbitraryData
    rw [if_pos hlt]
  · unfold Transaction.correctArbitraryData
    rw [if_neg (not_lt.mpr hge)]
  · unfold checkArbEntry
    rw [if_neg hpre]
  · unfold checkArbEntry
    rw [if_pos hpre, hdec]
  · unfold checkArbEntry
    rw [if_pos hpre, hdec]
    dsimp only
    rw [if_pos hz]
  · unfold checkArbEntry
    rw [if_pos hpre, hdec]
    dsimp only
    rw [if_neg (not_or.mpr ⟨hnp, hnf⟩)]

/-- C5 (witness): below the Foundation hardfork height, a malformed
Foundation-prefixed entry is accepted. -/
theorem correctArbitraryData_spec_witness :
    txFound.correctArbitraryData envW 3 = none :=
  (correctArbitraryData_spec envW txFound 3).1 (by decide)

/-- C6: `followsStorageProofRules` succeeds without storage proofs; with at
least one it fails with `storageProofWithOutputs` exactly when a coin
output, file contract, revision, or fund output is present — inputs, miner
fees and arbitrary data never trigger it. -/
theorem followsStorageProofRules_spec (t : Transaction) :
    (t.followsStorageProofRules = none ↔
      t.StorageProofs = [] ∨
      (t.TurtleDexcoinOutputs = [] ∧ t.FileContracts = [] ∧
       t.FileContractRevisions = [] ∧ t.TurtleDexfundOutputs = [])) ∧
    (t.followsStorageProofRules = none ∨
     t.followsStorageProofRules = some Err.storageProofWithOutputs) :=
  ⟨followsStorageProofRules_eq_none_iff t, followsStorageProofRules_possible t⟩

/-- C7: `noRepeats` fails with `doubleSpend` exactly when a coin-input
parent ID repeats, a fund-input parent ID repeats, or a file-contract ID is
referenced by more than one element of the combined storage-proof/revision
collection; otherwise it succeeds. -/
theorem noRepeats_spec (t : Transaction) :
    (t.noRepeats = some Err.doubleSpend ↔
      ¬ (t.TurtleDexcoinInputs.map TurtleDexcoinInput.ParentID).Nodup ∨
      ¬ (t.StorageProofs.map StorageProof.ParentID ++
         t.FileContractRevisions.map FileContractRevision.ParentID).Nodup ∨
      ¬ (t.TurtleDexfundInputs.map TurtleDexfundInput.ParentID).Nodup) ∧
    (t.noRepeats = none ∨ t.noRepeats = some Err.doubleSpend) :=
  ⟨noRepeats_eq_doubleSpend_iff t, noRepeats_possible t⟩

/-- C8: `correctFileContractRevisions` applies the window checks of the
contract rule to each revision's new window with the same errors, and then
requires the exact sums of new valid and new missed proof outputs to be
equal to each other — no tax term appears and the payout is not
re-validated. -/
theorem correctFileContractRevisions_spec (t : Transaction)
    (h : BlockHeight) :
    (t.correctFileContractRevisions h =
      t.FileContractRevisions.findSome? (fun fcr =>
        if fcr.NewWindowStart ≤ h then
          some Err.fileContractWindowStartViolation
        else if fcr.NewWindowEnd ≤ fcr.NewWindowStart then
          some Err.fileContractWindowEndViolation
        else if (fcr.NewValidProofOutputs.map TurtleDexcoinOutput.Value).sum =
                  (fcr.NewMissedProofOutputs.map TurtleDexcoinOutput.Value).sum
          then none
        else some Err.fileContractOutputSumViolation)) ∧
    (t.correctFileContractRevisions h = none ↔
      ∀ fcr ∈ t.FileContractRevisions,
        h < fcr.NewWindowStart ∧ fcr.NewWindowStart < fcr.NewWindowEnd ∧
        (fcr.NewValidProofOutputs.map TurtleDexcoinOutput.Value).sum =
          (fcr.NewMissedProofOutputs.map TurtleDexcoinOutput.Value).sum) := by
  refine ⟨?_, correctFileContractRevisions_eq_none_iff t h⟩
  unfold Transaction.correctFileContractRevisions
  refine findSome?_congr_mem fun fcr _ => ?_
  unfold checkFileContractRevision
  simp only [foldl_add_value, Nat.zero_add]
  by_cases h1 : fcr.NewWindowStart ≤ h
  · simp [h1]
  by_cases h2 : fcr.NewWindowEnd ≤ fcr.NewWindowStart
  · simp [h1, h2]
  by_cases h3 : (fcr.NewValidProofOutputs.map TurtleDexcoinOutput.Value).sum =
      (fcr.NewMissedProofOutputs.map TurtleDexcoinOutput.Value).sum
  · simp [h1, h2, h3]
  · simp [h1, h2, h3]

/-- C9: `followsMinimumValues` succeeds exactly when every coin output
value, contract payout, fund output value, and miner fee is non-zero and
every fund-output `ClaimStart` is zero; zero coin outputs, payouts, or fund
values yield `zeroOutput`, a non-zero `ClaimStart` yields
`nonZeroClaimStart`, and a zero miner fee yields `zeroMinerFee`. -/
theorem followsMinimumValues_spec (t : Transaction) :
    (t.followsMinimumValues = none ↔
      (∀ sco ∈ t.TurtleDexcoinOutputs, sco.Value ≠ 0) ∧
      (∀ fc ∈ t.FileContracts, fc.Payout ≠ 0) ∧
      (∀ sfo ∈ t.TurtleDexfundOutputs, sfo.ClaimStart = 0 ∧ sfo.Value ≠ 0) ∧
      (∀ fee ∈ t.MinerFees, fee ≠ 0)) ∧
    (((∃ sco ∈ t.TurtleDexcoinOutputs, sco.Value = 0) ∨
        (∃ fc ∈ t.FileContracts, fc.Payout = 0)) →
      t.followsMinimumValues = some Err.zeroOutput) ∧
    ((∀ sfo ∈ t.TurtleDexfundOutputs, sfo.ClaimStart = 0) ∧
        (∃ sfo ∈ t.TurtleDexfundOutputs, sfo.Value = 0) →
      t.followsMinimumValues = some Err.zeroOutput) ∧
    ((∀ sco ∈ t.TurtleDexcoinOutputs, sco.Value ≠ 0) ∧
        (∀ fc ∈ t.FileContracts, fc.Payout ≠ 0) ∧
        (∀ sfo ∈ t.TurtleDexfundOutputs, sfo.Value ≠ 0) ∧
        (∃ sfo ∈ t.TurtleDexfundOutputs, sfo.ClaimStart ≠ 0) →
      t.followsMinimumValues = some Err.nonZeroClaimStart) ∧
    ((∀ sco ∈ t.TurtleDexcoinOutputs, sco.Value ≠ 0) ∧
        (∀ fc ∈ t.FileContracts, fc.Payout ≠ 0) ∧
        (∀ sfo ∈ t.TurtleDexfundOutputs, sfo.ClaimStart = 0 ∧ sfo.Value ≠ 0) ∧
        (∃ fee ∈ t.MinerFees, fee = 0) →
      t.followsMinimumValues = some Err.zeroMinerFee) := by
  have coinRange : ∀ sco : TurtleDexcoinOutput,
      (if sco.Value = 0 then some Err.zeroOutput else none) = none ∨
      (if sco.Value = 0 then some Err.zeroOutput else none) =
        some Err.zeroOutput := by
    intro sco; split <;> simp
  have payRange : ∀ fc : FileContract,
      (if fc.Payout = 0 then some Err.zeroOutput else none) = none ∨
      (if fc.Payout = 0 then some Err.zeroOutput else none) =
        some Err.zeroOutput := by
    intro fc; split <;> simp
  have feeRange : ∀ fee : Currency,
      (if fee = 0 then some Err.zeroMinerFee else none) = none ∨
      (if fee = 0 then some Err.zeroMinerFee else none) =
        some Err.zeroMinerFee := by
    intro fee; split <;> simp
  have coinNone : ∀ sco : TurtleDexcoinOutput,
      ((if sco.Value = 0 then some Err.zeroOutput else none) = none) ↔
        sco.Value ≠ 0 := by
    intro sco; by_cases hz : sco.Value = 0 <;> simp [hz]
  have payNone : ∀ fc : FileContract,
      ((if fc.Payout = 0 then some Err.zeroOutput else none) = none) ↔
        fc.Payout ≠ 0 := by
    intro fc; by_cases hz : fc.Payout = 0 <;> simp [hz]
  have fundNone : ∀ sfo : TurtleDexfundOutput,
      (checkFundOutput sfo = none) ↔
        (sfo.ClaimStart = 0 ∧ sfo.Value ≠ 0) := by
    intro sfo
    unfold checkFundOutput
    by_cases h1 : sfo.ClaimStart = 0 <;> by_cases h2 : sfo.Value = 0 <;>
      simp [h1, h2]
  have feeNone : ∀ fee : Currency,
      ((if fee = 0 then some Err.zeroMinerFee else none) = none) ↔
        fee ≠ 0 := by
    intro fee; by_cases hz : fee = 0 <;> simp [hz]
  refine ⟨?_, ?_, ?_, ?_, ?_⟩
  · unfold Transaction.followsMinimumValues
    rw [chainErr_eq_none_iff, chainErr_eq_none_iff, chainErr_eq_none_iff,
      List.findSome?_eq_none_iff, List.findSome?_eq_none_iff,
      List.findSome?_eq_none_iff, List.findSome?_eq_none_iff]
    constructor
    · rintro ⟨hcoin, hpay, hfund, hfee⟩
      exact ⟨fun sco hs => (coinNone sco).mp (hcoin sco hs),
        fun fc hf => (payNone fc).mp (hpay fc hf),
        fun sfo hs => (fundNone sfo).mp (hfund sfo hs),
        fun fee hf => (feeNone fee).mp (hfee fee hf)⟩
    · rintro ⟨hcoin, hpay, hfund, hfee⟩
      exact ⟨fun sco hs => (coinNone sco).mpr (hcoin sco hs),
        fun fc hf => (payNone fc).mpr (hpay fc hf),
        fun sfo hs => (fundNone sfo).mpr (hfund sfo hs),
        fun fee hf => (feeNone fee).mpr (hfee fee hf)⟩
  · intro hex
    unfold Transaction.followsMinimumValues
    rcases findSome?_range coinRange t.TurtleDexcoinOutputs with h1 | h1
    · rw [h1, chainErr_none_left]
      rcases hex with hex | hex
      · exfalso
        obtain ⟨sco, hs, hz⟩ := hex
        rw [List.findSome?_eq_none_iff] at h1
        have hnone := h1 sco hs
        rw [if_pos hz] at hnone
        cases hnone
      · have h2 : t.FileContracts.findSome?
            (fun fc => if fc.Payout = 0 then some Err.zeroOutput else none) =
            some Err.zeroOutput := by
          apply findSome?_const_error payRange
          obtain ⟨fc, hf, hz⟩ := hex
          exact ⟨fc, hf, by rw [if_pos hz]⟩
        rw [h2, chainErr_some_left]
    · rw [h1, chainErr_some_left]
  · rintro ⟨hcs, sfo0, hs0, hv0⟩
    unfold Transaction.followsMinimumValues
    rcases findSome?_range coinRange t.TurtleDexcoinOutputs with h1 | h1
    · rw [h1, chainErr_none_left]
      rcases findSome?_range payRange t.FileContracts with h2 | h2
      · rw [h2, chainErr_none_left]
        have h3 : t.TurtleDexfundOutputs.findSome? checkFundOutput =
            some Err.zeroOutput := by
          rw [findSome?_congr_mem
            (g := fun sfo : TurtleDexfundOutput =>
              if sfo.Value = 0 then some Err.zeroOutput else none)
            (fun sfo hs => by
              show checkFundOutput sfo =
                if sfo.Value = 0 then some Err.zeroOutput else none
              unfold checkFundOutput
              rw [if_neg (not_not_intro (hcs sfo hs))])]
          apply findSome?_const_error
            (fun sfo => by by_cases hz : sfo.Value = 0 <;> simp [hz])
          exact ⟨sfo0, hs0, by rw [if_pos hv0]⟩
        rw [h3, chainErr_some_left]
      · rw [h2, chainErr_some_left]
    · rw [h1, chainErr_some_left]
  · rintro ⟨hcoin, hpay, hval, sfo0, hs0, hcs0⟩
    unfold Transaction.followsMinimumValues
    have h1 : t.TurtleDexcoinOutputs.findSome?
        (fun sco => if sco.Value = 0 then some Err.zeroOutput else none) =
        none :=
      List.findSome?_eq_none_iff.mpr fun sco hs => by
        rw [if_neg (hcoin sco hs)]
    have h2 : t.FileContracts.findSome?
        (fun fc => if fc.Payout = 0 then some Err.zeroOutput else none) =
        none :=
      List.findSome?_eq_none_iff.mpr fun fc hf => by
        rw [if_neg (hpay fc hf)]
    have h3 : t.TurtleDexfundOutputs.findSome? checkFundOutput =
        some Err.nonZeroClaimStart := by
      rw [findSome?_congr_mem
        (g := fun sfo : TurtleDexfundOutput =>
          if sfo.ClaimStart ≠ 0 then some Err.nonZeroClaimStart else none)
        (fun sfo hs => by
          show checkFundOutput sfo =
            if sfo.ClaimStart ≠ 0 then some Err.nonZeroClaimStart else none
          unfold checkFundOutput
          by_cases hc : sfo.ClaimStart ≠ 0
          · rw [if_pos hc, if_pos hc]
          · rw [if_neg hc, if_neg hc, if_neg (hval sfo hs)])]
      apply findSome?_const_error
        (fun sfo => by by_cases hc : sfo.ClaimStart ≠ 0 <;> simp [hc])
      exact ⟨sfo0, hs0, by rw [if_pos hcs0]⟩
    rw [h1, chainErr_none_left, h2, chainErr_none_left, h3, chainErr_some_left]
  · rintro ⟨hcoin, hpay, hfund, fee0, hf0, hz0⟩
    unfold Transaction.followsMinimumValues
    have h1 : t.TurtleDexcoinOutputs.findSome?
        (fun sco => if sco.Value = 0 then some Err.zeroOutput else none) =
        none :=
      List.findSome?_eq_none_iff.mpr fun sco hs => by
        rw [if_neg (hcoin sco hs)]
    have h2 : t.FileContracts.findSome?
        (fun fc => if fc.Payout = 0 then some Err.zeroOutput else none) =
        none :=
      List.findSome?_eq_none_iff.mpr fun fc hf => by
        rw [if_neg (hpay fc hf)]
    have h3 : t.TurtleDexfundOutputs.findSome? checkFundOutput = none :=
      List.findSome?_eq_none_iff.mpr fun sfo hs =>
        (fundNone sfo).mpr (hfund sfo hs)
    have h4 : t.MinerFees.findSome?
        (fun fee => if fee = 0 then some Err.zeroMinerFee else none) =
        some Err.zeroMinerFee := by
      apply findSome?_const_error feeRange
      exact ⟨fee0, hf0, by rw [if_pos hz0]⟩
    rw [h1, chainErr_none_left, h2, chainErr_none_left, h3,
      chainErr_none_left, h4]

/-- C9 (witness): a fund output with non-zero reserved `ClaimStart` and
non-zero value is rejected with `nonZeroClaimStart`. -/
theorem followsMinimumValues_spec_witness :
    txMin.followsMinimumValues = some Err.nonZeroClaimStart :=
  (followsMinimumValues_spec txMin).2.2.2.1 (by decide)

/-- Every error `StandaloneValid` can return: it comes from one of the nine
rules, whose possible errors are enumerated by the per-rule lemmas. -/
theorem standaloneValid_error_cases (env : Env) (t : Transaction)
    (h : BlockHeight) (e : Err) (he : t.StandaloneValid env h = some e) :
    e = Err.transactionTooLarge ∨ e = Err.storageProofWithOutputs ∨
    e = Err.doubleSpend ∨ e = Err.zeroOutput ∨ e = Err.nonZeroClaimStart ∨
    e = Err.zeroMinerFee ∨ e = Err.fileContractWindowStartViolation ∨
    e = Err.fileContractWindowEndViolation ∨
    e = Err.fileContractOutputSumViolation ∨
    e = Err.invalidFoundationUpdateEncoding ∨
    e = Err.uninitializedFoundationUpdate ∨
    e = Err.timelockNotSatisfied ∨ ∃ k, e = Err.sigError k := by
  unfold Transaction.StandaloneValid at he
  rcases fitsInABlock_possible t env h with h1 | h1 <;> rw [h1] at he
  case inr => rw [chainErr_some_left] at he; cases he; simp
  rw [chainErr_none_left] at he
  rcases followsStorageProofRules_possible t with h2 | h2 <;> rw [h2] at he
  case inr => rw [chainErr_some_left] at he; cases he; simp
  rw [chainErr_none_left] at he
  rcases noRepeats_possible t with h3 | h3 <;> rw [h3] at he
  case inr => rw [chainErr_some_left] at he; cases he; simp
  rw [chainErr_none_left] at he
  rcases followsMinimumValues_possible t with h4 | h4 | h4 | h4 <;>
    rw [h4] at he
  case inr.inl => rw [chainErr_some_left] at he; cases he; simp
  case inr.inr.inl => rw [chainErr_some_left] at he; cases he; simp
  case inr.inr.inr => rw [chainErr_some_left] at he; cases he; simp
  rw [chainErr_none_left] at he
  rcases correctFileContracts_possible t env h with h5 | h5 | h5 | h5 <;>
    rw [h5] at he
  case inr.inl => rw [chainErr_some_left] at he; cases he; simp
  case inr.inr.inl => rw [chainErr_some_left] at he; cases he; simp
  case inr.inr.inr => rw [chainErr_some_left] at he; cases he; simp
  rw [chainErr_none_left] at he
  rcases correctFileContractRevisions_possible t h with h6 | h6 | h6 | h6 <;>
    rw [h6] at he
  case inr.inl => rw [chainErr_some_left] at he; cases he; simp
  case inr.inr.inl => rw [chainErr_some_left] at he; cases he; simp
  case inr.inr.inr => rw [chainErr_some_left] at he; cases he; simp
  rw [chainErr_none_left] at he
  rcases correctArbitraryData_possible t env h with h7 | h7 | h7 <;>
    rw [h7] at he
  case inr.inl => rw [chainErr_some_left] at he; cases he; simp
  case inr.inr => rw [chainErr_some_left] at he; cases he; simp
  rw [chainErr_none_left] at he
  rcases validUnlockConditions_possible t h with h8 | h8 <;> rw [h8] at he
  case inr => rw [chainErr_some_left] at he; cases he; simp
  rw [chainErr_none_left] at he
  cases hs : env.ValidSignatures t h <;> rw [hs] at he
  · cases he
  · simp only [Option.map] at he
    cases he
    simp

/-- C10: no revision-number rule exists. `StandaloneValid` never returns the
declared errors `nonZeroRevision` or `zeroRevision`, and rewriting every
revision-number field leaves the verdict unchanged whenever the two
whole-transaction collaborators (canonical size, signature verification)
report the same values on the rewritten transaction. -/
theorem standaloneValid_no_revision_rule (env : Env) (t : Transaction)
    (h : BlockHeight) (g : Nat → Nat) :
    t.StandaloneValid env h ≠ some Err.nonZeroRevision ∧
    t.StandaloneValid env h ≠ some Err.zeroRevision ∧
    (env.MarshalTurtleDexSize (mapRevisionNumbers g t) =
        env.MarshalTurtleDexSize t →
      env.ValidSignatures (mapRevisionNumbers g t) h =
        env.ValidSignatures t h →
      (mapRevisionNumbers g t).StandaloneValid env h =
        t.StandaloneValid env h) := by
  refine ⟨fun hc => ?_, fun hc => ?_, fun hsize hsig => ?_⟩
  · rcases standaloneValid_error_cases env t h _ hc with
      h1 | h1 | h1 | h1 | h1 | h1 | h1 | h1 | h1 | h1 | h1 | h1 | ⟨k, h1⟩ <;>
      cases h1
  · rcases standaloneValid_error_cases env t h _ hc with
      h1 | h1 | h1 | h1 | h1 | h1 | h1 | h1 | h1 | h1 | h1 | h1 | ⟨k, h1⟩ <;>
      cases h1
  · have e1 : (mapRevisionNumbers g t).fitsInABlock env h =
        t.fitsInABlock env h := by
      unfold Transaction.fitsInABlock
      rw [hsize]
    have e2 : (mapRevisionNumbers g t).followsStorageProofRules =
        t.followsStorageProofRules := by
      unfold Transaction.followsStorageProofRules mapRevisionNumbers
      dsimp only
      simp only [List.length_map]
    have e3 : (mapRevisionNumbers g t).noRepeats = t.noRepeats := by
      unfold Transaction.noRepeats mapRevisionNumbers
      dsimp only
      simp only [List.map_map]
      rfl
    have e4 : (mapRevisionNumbers g t).followsMinimumValues =
        t.followsMinimumValues := by
      unfold Transaction.followsMinimumValues mapRevisionNumbers
      dsimp only
      simp only [List.findSome?_map]
      rfl
    have e5 : (mapRevisionNumbers g t).correctFileContracts env h =
        t.correctFileContracts env h := by
      unfold Transaction.correctFileContracts mapRevisionNumbers
      dsimp only
      simp only [List.findSome?_map]
      rfl
    have e6 : (mapRevisionNumbers g t).correctFileContractRevisions h =
        t.correctFileContractRevisions h := by
      unfold Transaction.correctFileContractRevisions mapRevisionNumbers
      dsimp only
      simp only [List.findSome?_map]
      rfl
    have e7 : (mapRevisionNumbers g t).correctArbitraryData env h =
        t.correctArbitraryData env h := rfl
    have e8 : (mapRevisionNumbers g t).validUnlockConditions h =
        t.validUnlockConditions h := by
      unfold Transaction.validUnlockConditions mapRevisionNumbers
      dsimp only
      simp only [List.findSome?_map]
      rfl
    unfold Transaction.StandaloneValid
    rw [e1, e2, e3, e4, e5, e6, e7, e8, hsig]

/-- C10 (witness): zeroing out all revision numbers of a concrete
transaction leaves the verdict unchanged under `envW`'s collaborators. -/
theorem standaloneValid_no_revision_rule_witness :
    (mapRevisionNumbers (fun _ => 0) txRev).StandaloneValid envW 5 =
      txRev.StandaloneValid envW 5 :=
  (standaloneValid_no_revision_rule envW txRev 5 (fun _ => 0)).2.2
    (by decide) (by decide)

end TurtleDex
